import Mathlib

/-!
Shallow embedding of the static-file serving subsystem of the ChisaServer
class (src/backups.js): registration of static mounts (`static`), file
serving with ETag / Cache-Control / Range support (`#serveStaticFile`),
the mount-iterating request handler (`#handleStaticFiles`), and the
per-response helpers installed by `#enhanceResponse` (`res.sendFile`,
`res.download`).

JavaScript strings are modelled as Lean `String`s operated on through
their character lists; JavaScript numbers appearing in the range logic
are modelled as `Option Int` with `none` playing the role of `NaN`
(every `>=` comparison against `NaN` is false, exactly as in JS).
Filesystem state is a finite association of absolute paths to nodes;
`fs.promises.stat` and `fs.createReadStream` are modelled against it.
-/

/-! ## JavaScript string and number primitives -/

/-- Decimal digit character for a digit value (values ≥ 9 clamp to '9';
only ever applied to `n % 10` or `n < 10`). -/
def digitChar (n : Nat) : Char :=
  match n with
  | 0 => '0' | 1 => '1' | 2 => '2' | 3 => '3' | 4 => '4'
  | 5 => '5' | 6 => '6' | 7 => '7' | 8 => '8' | _ => '9'

/-- Fuel-driven decimal rendering of a natural number (most significant
digit first). `fuel` only needs to exceed the number being rendered. -/
def natDecAux : Nat → Nat → List Char
  | 0, _ => []
  | fuel + 1, n => if n < 10 then [digitChar n] else natDecAux fuel (n / 10) ++ [digitChar (n % 10)]

/-- Decimal digits of a natural number, as produced by a JS template
literal for a non-negative integer. -/
def natDec (n : Nat) : List Char :=
  natDecAux (n + 1) n

/-- String form of `natDec`. -/
def natStr (n : Nat) : String :=
  ⟨natDec n⟩

/-- JS stringification of an integer (template literal / setHeader). -/
def intStr (i : Int) : String :=
  if i < 0 then ⟨'-' :: natDec i.natAbs⟩ else ⟨natDec i.natAbs⟩

/-- Numeric value of a list of decimal digit characters. -/
def decVal (cs : List Char) : Nat :=
  cs.foldl (fun a c => a * 10 + (c.toNat - 48)) 0

/-- The whitespace characters skipped by JS `parseInt`. -/
def jsWhitespace (c : Char) : Bool :=
  c = ' ' || c = '\t' || c = '\n' || c = '\r' || c = '\x0b' || c = '\x0c'

/-- Longest leading run of decimal digits, `none` when there is none
(the `NaN` case of `parseInt`). -/
def parseDigits (cs : List Char) : Option Nat :=
  let ds := cs.takeWhile Char.isDigit
  if ds = [] then none else some (decVal ds)

/-- JS `parseInt(s, 10)`: skip whitespace, optional sign, then the
longest digit run; `none` models `NaN`. -/
def jsParseInt (cs : List Char) : Option Int :=
  match cs.dropWhile jsWhitespace with
  | [] => none
  | c :: rest =>
    if c = '-' then (parseDigits rest).map (fun n : Nat => -(n : Int))
    else if c = '+' then (parseDigits rest).map (fun n : Nat => (n : Int))
    else (parseDigits (c :: rest)).map (fun n : Nat => (n : Int))

/-- JS `String.prototype.split` with a single-character separator.
Always returns at least one (possibly empty) piece. -/
def splitChar (c : Char) : List Char → List (List Char)
  | [] => [[]]
  | x :: xs =>
    match splitChar c xs with
    | [] => [[]]
    | y :: ys => if x = c then [] :: y :: ys else (x :: y) :: ys

/-- JS `String.prototype.replace` with a plain pattern: removes the first
occurrence of `pat` (the use site replaces it with the empty string). -/
def replaceFirst (pat : List Char) : List Char → List Char
  | [] => []
  | x :: xs =>
    if pat.isPrefixOf (x :: xs) then (x :: xs).drop pat.length
    else x :: replaceFirst pat xs

/-- JS `String.prototype.startsWith`. -/
def jsStartsWith (s pre : String) : Bool :=
  pre.data.isPrefixOf s.data

/-- JS `String.prototype.slice(n)` with a non-negative index. -/
def jsSliceFrom (s : String) (n : Nat) : String :=
  ⟨s.data.drop n⟩

/-- JS `>=` between a possibly-NaN number and a number: any comparison
with NaN is false. -/
def jsGe (a : Option Int) (b : Int) : Bool :=
  match a with
  | none => false
  | some x => b ≤ x

/-- JS subtraction where either operand may be NaN. -/
def jsSub (a b : Option Int) : Option Int :=
  match a, b with
  | some x, some y => some (x - y)
  | _, _ => none

/-- JS addition where either operand may be NaN. -/
def jsAdd (a b : Option Int) : Option Int :=
  match a, b with
  | some x, some y => some (x + y)
  | _, _ => none

/-- JS stringification of a possibly-NaN number. -/
def jsNumStr (a : Option Int) : String :=
  match a with
  | none => "NaN"
  | some i => intStr i

/-! ## Node `path` module (posix) -/

/-- Segment normalization of Node's `path.normalize`: drop empty and `.`
segments, let `..` pop the previous segment (above the root it vanishes
for absolute paths and accumulates for relative ones). The accumulator
holds already-kept segments in reverse. -/
def normSegs (isAbs : Bool) : List (List Char) → List (List Char) → List (List Char)
  | acc, [] => acc.reverse
  | acc, s :: rest =>
    if s = [] ∨ s = ['.'] then normSegs isAbs acc rest
    else if s = ['.', '.'] then
      match acc with
      | [] => if isAbs then normSegs isAbs [] rest else normSegs isAbs [['.', '.']] rest
      | a :: tl => if a = ['.', '.'] then normSegs isAbs (s :: a :: tl) rest else normSegs isAbs tl rest
    else normSegs isAbs (s :: acc) rest

/-- Node `path.posix.normalize` on a non-empty path, restricted to the
separator-and-dot-segment behavior (no symlinks; a trailing slash on a
non-root result is preserved as in Node). -/
def normalizePath (cs : List Char) : List Char :=
  let isAbs := cs.head? = some '/'
  let trailing := cs.getLast? = some '/'
  let core := List.intercalate ['/'] (normSegs isAbs [] (splitChar '/' cs))
  if isAbs then
    if core = [] then ['/'] else '/' :: core ++ (if trailing then ['/'] else [])
  else
    if core = [] then ['.'] else core ++ (if trailing then ['/'] else [])

/-- Node `path.join(a, b)` for the posix separator. -/
def pathJoin (a b : String) : String :=
  if a.data = [] ∧ b.data = [] then "."
  else ⟨normalizePath (if a.data = [] then b.data else if b.data = [] then a.data else a.data ++ '/' :: b.data)⟩

/-- Node `path.resolve(p)` against a current working directory. -/
def pathResolve (cwd p : String) : String :=
  if p.data.head? = some '/' then ⟨normalizePath p.data⟩ else pathJoin cwd p

/-- Node `path.basename`: the last `/`-separated segment. -/
def pathBasename (s : String) : String :=
  ⟨(splitChar '/' s.data).getLastD []⟩

/-- The spec's containment relation for the traversal defense: a path is
the mount root itself or lies strictly below it (segment-aware, unlike
the source's string-prefix test). Stated from the spec's words for
comparison against the code's check. -/
def isDescendantOrEqual (p root : String) : Bool :=
  p = root || (root.data ++ ['/']).isPrefixOf p.data

/-! ## Filesystem, requests, responses, errors -/

/-- A filesystem node: a regular file with content bytes and an mtime
(milliseconds since epoch, as `Date.prototype.getTime` returns), or a
directory. -/
inductive FsNode where
  | file (content : List Nat) (mtimeMs : Int)
  | dir
deriving DecidableEq

/-- A filesystem: association of absolute paths to nodes. -/
def Fs := List (String × FsNode)

/-- Lookup of a path in the filesystem. -/
def fsGet : Fs → String → Option FsNode
  | [], _ => none
  | (q, node) :: rest, p => if q = p then some node else fsGet rest p

/-- The error values thrown in the source: `HttpError(status, message)`,
Node filesystem errors (carrying a `code` such as `ENOENT`), and
`ReferenceError` (an unresolvable identifier). -/
inductive JsErr where
  | httpError (status : Nat) (msg : String)
  | fsError (code : String) (msg : String)
  | referenceError (msg : String)
deriving DecidableEq

/-- `err.code` — defined only on Node fs errors. -/
def errCode : JsErr → Option String
  | .fsError c _ => some c
  | _ => none

/-- `err.status` — defined only on HttpError. -/
def errStatus : JsErr → Option Nat
  | .httpError s _ => some s
  | _ => none

/-- `err.message`. -/
def errMessage : JsErr → String
  | .httpError _ m => m
  | .fsError _ m => m
  | .referenceError m => m

/-- Result of `fs.promises.stat`. -/
structure Stats where
  isFile : Bool
  isDirectory : Bool
  size : Nat
  mtimeMs : Int
deriving DecidableEq

/-- `fs.promises.stat`: missing paths reject with an `ENOENT` error. -/
def statFs (fs : Fs) (p : String) : Except JsErr Stats :=
  match fsGet fs p with
  | none => .error (.fsError "ENOENT" "ENOENT: no such file or directory")
  | some (.file content mtime) => .ok ⟨true, false, content.length, mtime⟩
  | some .dir => .ok ⟨false, true, 0, 0⟩

/-- Content bytes of a path (empty for directories / missing paths;
only read after a successful stat). -/
def fileContent (fs : Fs) (p : String) : List Nat :=
  match fsGet fs p with
  | some (.file content _) => content
  | _ => []

/-- `fs.createReadStream(path, \x7bstart, end\x7d)` piped to the response:
the inclusive byte window `[start, end]` of the content. Arguments come
straight from the range parser; the proved theorems only exercise the
in-bounds `0 ≤ start ≤ end` case (outside it Node's stream errors and no
well-defined body is produced — modelled as an empty body). -/
def fileSlice (content : List Nat) : Option Int → Option Int → List Nat
  | some s, some e => (content.drop s.toNat).take ((e - s + 1).toNat)
  | _, _ => []

/-- The request fields this subsystem reads: `req.path`,
`req.headers['if-none-match']`, `req.headers.range` (absent headers are
`none`). -/
structure Request where
  path : String
  ifNoneMatch : Option String
  range : Option String
deriving DecidableEq

/-- The response state accumulated by `setHeader` / `status` / body
writes. `setHeader` overwrites a previously set header of the same name. -/
structure Response where
  headers : List (String × String)
  status : Nat
  body : List Nat
deriving DecidableEq

/-- Drop all bindings of a header name. -/
def removeHeader (n : String) : List (String × String) → List (String × String)
  | [] => []
  | p :: rest => if p.fst = n then removeHeader n rest else p :: removeHeader n rest

/-- First binding of a header name. -/
def lookupHeader (n : String) : List (String × String) → Option String
  | [] => none
  | p :: rest => if p.fst = n then some p.snd else lookupHeader n rest

/-- `res.setHeader(name, value)`: overwrites an earlier value of the
same header. -/
def Response.setHeader (r : Response) (n v : String) : Response :=
  { r with headers := (n, v) :: removeHeader n r.headers }

/-- Read back a header from the response state. -/
def Response.getHeader (r : Response) (n : String) : Option String :=
  lookupHeader n r.headers

/-- The fresh response a request handler starts from. -/
def Response.init : Response :=
  ⟨[], 200, []⟩

/-! ## Static options and registration (`static`, line 11-30) -/

/-- The normalized per-mount options (the fields read by the serving
code: `index`, `dotfiles`, `etag`, `maxAge` — the last in milliseconds,
per the source comment). -/
structure StaticOptions where
  index : String
  dotfiles : String
  etag : Bool
  maxAge : Int
deriving DecidableEq

/-- The raw options object passed to `static(urlPath, dirPath, options)`;
`none` is an absent property. -/
structure RawOptions where
  index : Option String := none
  dotfiles : Option String := none
  etag : Option Bool := none
  maxAge : Option Int := none

/-- The defaulting performed at registration: each default is computed
and then overridden by the raw property when present (the source builds
the defaults and then spreads `...options` over them, so a provided
value always wins). -/
def mkStaticOptions (o : RawOptions) : StaticOptions :=
  { index := o.index.getD "index.html"
    dotfiles := o.dotfiles.getD "ignore"
    etag := o.etag.getD true
    maxAge := o.maxAge.getD 0 }

/-- A registered mount: URL prefix, `path.resolve`d directory, options. -/
structure Mount where
  urlPath : String
  dirPath : String
  options : StaticOptions
deriving DecidableEq

/-! ## `#serveStaticFile` (lines 33-92) -/

/-- The weak validator computed at line 43:
`W/"<size>-<mtime.getTime()>"`. -/
def computeEtag (size : Nat) (mtimeMs : Int) : String :=
  "W/\"" ++ natStr size ++ "-" ++ intStr mtimeMs ++ "\""

/-- Outcome of range negotiation: no `Range` header, an unsatisfiable
range (416), or a byte range to serve at 206. The two bounds are the JS
numbers produced by `parseInt` / the `size - 1` default (`none` = NaN). -/
inductive RangeOutcome where
  | full
  | unsat
  | ranged (start endv : Option Int)
deriving DecidableEq

/-- The range negotiation of lines 62-72: strip `bytes=`, split on `-`,
`parseInt` the first piece, `parseInt` the second if it is truthy and
default it to `size - 1` otherwise, and reject when either bound `>=`
the size (NaN comparisons are false, so an unparsed bound passes). -/
def negotiateRange (header : Option String) (size : Int) : RangeOutcome :=
  match header with
  | none => .full
  | some r =>
    let parts := splitChar '-' (replaceFirst "bytes=".data r.data)
    let start := jsParseInt (parts.headD [])
    let p1 := parts.getD 1 []
    let endv := if p1 ≠ [] then jsParseInt p1 else some (size - 1)
    if jsGe start size || jsGe endv size then .unsat
    else .ranged start endv

/-- A tiny model of the `mime-types` lookup: extension of the basename,
mapped through a fixed table, defaulting to nothing (the caller then
falls back to `application/octet-stream`). -/
def mimeLookup (p : String) : Option String :=
  let parts := splitChar '.' (pathBasename p).data
  if parts.length ≥ 2 then
    match (⟨parts.getLastD []⟩ : String) with
    | "html" => some "text/html"
    | "htm" => some "text/html"
    | "css" => some "text/css"
    | "js" => some "application/javascript"
    | "json" => some "application/json"
    | "txt" => some "text/plain"
    | "png" => some "image/png"
    | _ => none
  else none

/-- `#serveStaticFile` after a successful stat: the ETag/304 short
circuit, the Content-Type / Content-Length / Cache-Control headers, and
the range branch (lines 41-84). -/
def serveAfterStat (fs : Fs) (req : Request) (filePath : String) (options : StaticOptions) (stats : Stats) : Except JsErr Response :=
  let etag := computeEtag stats.size stats.mtimeMs
  let r1 := if options.etag then Response.init.setHeader "ETag" etag else Response.init
  if options.etag ∧ req.ifNoneMatch = some etag then
    .ok { r1 with status := 304, body := [] }
  else
    let mimeType := (mimeLookup filePath).getD "application/octet-stream"
    let r2 := (r1.setHeader "Content-Type" mimeType).setHeader "Content-Length" (natStr stats.size)
    let r3 := if options.maxAge ≠ 0 then
        r2.setHeader "Cache-Control" ("public, max-age=" ++ intStr (options.maxAge.fdiv 1000))
      else r2
    match negotiateRange req.range (stats.size : Int) with
    | .full => .ok { r3 with status := 200, body := fileContent fs filePath }
    | .unsat =>
      .ok { r3.setHeader "Content-Range" ("bytes */" ++ natStr stats.size) with status := 416, body := [] }
    | .ranged s e =>
      let r4 := ((r3.setHeader "Content-Range"
          ("bytes " ++ jsNumStr s ++ "-" ++ jsNumStr e ++ "/" ++ natStr stats.size)).setHeader
          "Accept-Ranges" "bytes").setHeader "Content-Length" (jsNumStr (jsAdd (jsSub e s) (some 1)))
      .ok { r4 with status := 206, body := fileSlice (fileContent fs filePath) s e }

/-- `#serveStaticFile(req, res, filePath, options)` (lines 33-92):
stat the path (an `ENOENT` rejection becomes `HttpError(404, 'File Not
Found')` through the catch block), reject non-files with
`HttpError(404, 'Not Found')`, then serve. -/
def serveStaticFile (fs : Fs) (req : Request) (filePath : String) (options : StaticOptions) : Except JsErr Response :=
  match statFs fs filePath with
  | .error e =>
    if errCode e = some "ENOENT" then .error (.httpError 404 "File Not Found") else .error e
  | .ok stats =>
    if ¬ stats.isFile then .error (.httpError 404 "Not Found")
    else serveAfterStat fs req filePath options stats

/-! ## `#handleStaticFiles` (lines 127-170) -/

/-- The body of the per-mount `try` block (lines 138-160): stat the
resolved path; directories go to the index file (or 404 without one);
a dot-leading basename is gated by the dotfile policy; otherwise the
file is served. -/
def tryServeMount (fs : Fs) (req : Request) (m : Mount) (absolutePath : String) : Except JsErr Response :=
  match statFs fs absolutePath with
  | .error e => .error e
  | .ok stats =>
    if stats.isDirectory then
      if m.options.index ≠ "" then
        serveStaticFile fs req (pathJoin absolutePath m.options.index) m.options
      else .error (.httpError 404 "Not Found")
    else
      if (pathBasename absolutePath).data.head? = some '.' then
        match m.options.dotfiles with
        | "deny" => .error (.httpError 403 "Forbidden")
        | "ignore" => .error (.httpError 404 "Not Found")
        | _ => serveStaticFile fs req absolutePath m.options
      else serveStaticFile fs req absolutePath m.options

/-- What `#handleStaticFiles` evaluates to when it does not throw:
a successful serve returns the (undefined) value of the serve call, a
miss of every mount returns `false`. -/
inductive HandleResult where
  | served (r : Response)
  | noMatch
deriving DecidableEq

/-- `#handleStaticFiles(req, res)` (lines 127-170): iterate mounts in
registration order; on a prefix match, join the remainder onto the
mount directory, apply the string-prefix traversal check (403), run the
try block, and on an error continue with the next mount exactly when
`err.code === 'ENOENT'`, rethrowing every other error. -/
def handleStaticFiles (fs : Fs) (req : Request) : List Mount → Except JsErr HandleResult
  | [] => .ok .noMatch
  | m :: rest =>
    if jsStartsWith req.path m.urlPath then
      let relativePath := jsSliceFrom req.path m.urlPath.data.length
      let absolutePath := pathJoin m.dirPath relativePath
      if ¬ jsStartsWith absolutePath m.dirPath then
        .error (.httpError 403 "Forbidden")
      else
        match tryServeMount fs req m absolutePath with
        | .ok r => .ok (.served r)
        | .error e =>
          if errCode e = some "ENOENT" then handleStaticFiles fs req rest
          else .error e
    else handleStaticFiles fs req rest

/-- The absolute path `#handleStaticFiles` resolves for a mount. -/
def resolveMountPath (m : Mount) (reqPath : String) : String :=
  pathJoin m.dirPath (jsSliceFrom reqPath m.urlPath.data.length)

/-! ## JS truthiness of the handler's return value (`listen`, 179-180) -/

/-- The JS values `#handleStaticFiles` can produce: `undefined` (a serve
happened — the serve call's value is returned) or `false`. -/
inductive JsValue where
  | undefined
  | boolean (b : Bool)
deriving DecidableEq

/-- JS truthiness of those values. -/
def jsTruthy : JsValue → Bool
  | .undefined => false
  | .boolean b => b

/-- The value the `await this.#handleStaticFiles(req, res)` expression
takes for each non-throwing outcome. -/
def handleReturnValue : HandleResult → JsValue
  | .served _ => .undefined
  | .noMatch => .boolean false

/-- The guard at line 180: `if (staticServed) return;` stops further
request processing exactly when the value is truthy. -/
def listenGuardStops (v : JsValue) : Bool :=
  jsTruthy v

/-! ## `#enhanceResponse` (lines 95-124) -/

/-- `#enhanceResponse(res)` brings no `req` into scope: the arrow
functions it installs close over `filePath` / `options` / `filename`,
`res`, and `this` only, so the identifier `req` they pass to
`#serveStaticFile` resolves to nothing. -/
def enhanceResponseReqBinding : Option Request := none

/-- The catch block shared by `res.sendFile` and `res.download`: any
error is rewrapped as `HttpError(err.status || 500, err.message)`. -/
def wrapHelperError : Except JsErr Response → Except JsErr Response
  | .ok r => .ok r
  | .error e => .error (.httpError ((errStatus e).getD 500) (errMessage e))

/-- `res.sendFile(filePath, options)`: resolve the path, then call
`#serveStaticFile(req, ...)`; evaluating `req` throws a ReferenceError
when no binding exists. -/
def resSendFile (fs : Fs) (cwd filePath : String) (options : StaticOptions) (reqBinding : Option Request) : Except JsErr Response :=
  wrapHelperError
    (match reqBinding with
     | none => .error (.referenceError "req is not defined")
     | some rq => serveStaticFile fs rq (pathResolve cwd filePath) options)

/-- The options value `#serveStaticFile` sees when `res.download` calls
it without an options argument: every property reads as undefined
(falsy). -/
def undefinedOptions : StaticOptions :=
  { index := "", dotfiles := "", etag := false, maxAge := 0 }

/-- The try-block body of `res.download(filePath, filename)`: stat the
resolved path (404 for non-files), set Content-Disposition (response
state discarded on failure, so not tracked here), then call
`#serveStaticFile(req, res, absolutePath)` — evaluating `req` throws
when unbound. -/
def resDownloadInner (fs : Fs) (absolutePath : String) (reqBinding : Option Request) : Except JsErr Response :=
  match statFs fs absolutePath with
  | .error e => .error e
  | .ok stats =>
    if ¬ stats.isFile then .error (.httpError 404 "File Not Found")
    else
      match reqBinding with
      | none => .error (.referenceError "req is not defined")
      | some rq => serveStaticFile fs rq absolutePath undefinedOptions

/-- `res.download(filePath, filename)` with its catch block. -/
def resDownload (fs : Fs) (cwd filePath : String) (reqBinding : Option Request) : Except JsErr Response :=
  wrapHelperError (resDownloadInner fs (pathResolve cwd filePath) reqBinding)

/-! ## Observation helpers on handler results -/

/-- Status of a successful serve, if any. -/
def respStatus : Except JsErr Response → Option Nat
  | .ok r => some r.status
  | .error _ => none

/-- A header of a successful serve, if any. -/
def respHeader (n : String) : Except JsErr Response → Option String
  | .ok r => r.getHeader n
  | .error _ => none

/-- Body of a successful serve, if any. -/
def respBody : Except JsErr Response → Option (List Nat)
  | .ok r => some r.body
  | .error _ => none

/-- Status observed through `#handleStaticFiles` when it served a file. -/
def handleStatus : Except JsErr HandleResult → Option Nat
  | .ok (.served r) => some r.status
  | _ => none

/-- The error `#handleStaticFiles` threw, if any. -/
def handleError : Except JsErr HandleResult → Option JsErr
  | .error e => some e
  | _ => none

/-- The JS value of a non-throwing `#handleStaticFiles` call. -/
def handleReturn : Except JsErr HandleResult → Option JsValue
  | .ok hr => some (handleReturnValue hr)
  | .error _ => none

/-! ## Lemmas: decimal digits and parsing -/

/-- Every character `digitChar` produces is a decimal digit. -/
theorem digitChar_isDigit (n : Nat) : (digitChar n).isDigit = true := by
  unfold digitChar
  split <;> decide

/-- Value of the digit character for an in-range digit. -/
theorem digitChar_toNat (n : Nat) (h : n < 10) : (digitChar n).toNat = 48 + n := by
  interval_cases n <;> decide

/-- Fuel-indexed correctness of the decimal renderer: round trip through
`decVal`, non-emptiness, and digits-only output. -/
theorem natDecAux_spec : ∀ fuel n, n < fuel →
    decVal (natDecAux fuel n) = n ∧ natDecAux fuel n ≠ [] ∧
      ∀ c ∈ natDecAux fuel n, c.isDigit = true := by
  intro fuel
  induction fuel with
  | zero => intro n hn; omega
  | succ fuel ih =>
    intro n hn
    by_cases h10 : n < 10
    · refine ⟨?_, ?_, ?_⟩
      · simp [natDecAux, h10, decVal, List.foldl, digitChar_toNat n h10]
      · simp [natDecAux, h10]
      · simp [natDecAux, h10]
        exact digitChar_isDigit n
    · have hdiv : n / 10 < n := Nat.div_lt_self (by omega) (by omega)
      obtain ⟨ihv, ihne, ihd⟩ := ih (n / 10) (by omega)
      refine ⟨?_, ?_, ?_⟩
      · show decVal (natDecAux (fuel + 1) n) = n
        have hunf : natDecAux (fuel + 1) n = natDecAux fuel (n / 10) ++ [digitChar (n % 10)] := by
          simp [natDecAux, h10]
        rw [hunf]
        show (natDecAux fuel (n / 10) ++ [digitChar (n % 10)]).foldl (fun a c => a * 10 + (c.toNat - 48)) 0 = n
        rw [List.foldl_append]
        show decVal (natDecAux fuel (n / 10)) * 10 + ((digitChar (n % 10)).toNat - 48) = n
        rw [ihv, digitChar_toNat (n % 10) (by omega)]
        omega
      · simp [natDecAux, h10]
      · simp only [natDecAux, h10, if_false, List.mem_append, List.mem_singleton]
        intro c hc
        rcases hc with hc | hc
        · exact ihd c hc
        · rw [hc]; exact digitChar_isDigit (n % 10)

/-- Round trip: the decimal value of `natDec n` is `n`. -/
theorem decVal_natDec (n : Nat) : decVal (natDec n) = n :=
  (natDecAux_spec (n + 1) n (by omega)).1

/-- `natDec` never produces the empty list. -/
theorem natDec_ne_nil (n : Nat) : natDec n ≠ [] :=
  (natDecAux_spec (n + 1) n (by omega)).2.1

/-- `natDec` produces digits only. -/
theorem natDec_digits (n : Nat) : ∀ c ∈ natDec n, c.isDigit = true :=
  (natDecAux_spec (n + 1) n (by omega)).2.2

/-- The decimal renderer is injective. -/
theorem natDec_inj {a b : Nat} (h : natDec a = natDec b) : a = b := by
  have := congrArg decVal h
  rwa [decVal_natDec, decVal_natDec] at this

/-- A digit character is not `parseInt` whitespace. -/
theorem isDigit_not_ws {c : Char} (h : c.isDigit = true) : jsWhitespace c = false := by
  by_contra hw
  have hw' : jsWhitespace c = true := by
    cases hj : jsWhitespace c
    · exact absurd hj hw
    · rfl
  have : c = ' ' ∨ c = '\t' ∨ c = '\n' ∨ c = '\r' ∨ c = '\x0b' ∨ c = '\x0c' := by
    simpa [jsWhitespace, or_assoc] using hw'
  rcases this with rfl | rfl | rfl | rfl | rfl | rfl <;> simp_all

/-- A digit character is neither a sign nor the range separator. -/
theorem isDigit_ne_signs {c : Char} (h : c.isDigit = true) : c ≠ '-' ∧ c ≠ '+' := by
  constructor <;> rintro rfl <;> simp_all

/-- `takeWhile` keeps a list all of whose elements satisfy the predicate. -/
theorem takeWhile_of_all {α} (p : α → Bool) : ∀ l : List α, (∀ c ∈ l, p c = true) → l.takeWhile p = l := by
  intro l
  induction l with
  | nil => intro _; rfl
  | cons x xs ih =>
    intro h
    rw [List.takeWhile_cons, h x (by simp)]
    simp [ih fun c hc => h c (List.mem_cons_of_mem x hc)]

/-- `parseInt` on a non-empty all-digit string returns its decimal value. -/
theorem jsParseInt_digits {cs : List Char} (hne : cs ≠ []) (hd : ∀ c ∈ cs, c.isDigit = true) :
    jsParseInt cs = some ((decVal cs : Nat) : Int) := by
  obtain ⟨c, rest, rfl⟩ : ∃ c rest, cs = c :: rest := by
    cases cs with
    | nil => exact absurd rfl hne
    | cons c rest => exact ⟨c, rest, rfl⟩
  have hc : c.isDigit = true := hd c (by simp)
  have hdrop : (c :: rest).dropWhile jsWhitespace = c :: rest := by
    rw [List.dropWhile_cons, isDigit_not_ws hc]
    simp
  have hparse : parseDigits (c :: rest) = some (decVal (c :: rest)) := by
    unfold parseDigits
    rw [takeWhile_of_all _ _ hd]
    simp
  rw [jsParseInt, hdrop]
  simp [(isDigit_ne_signs hc).1, (isDigit_ne_signs hc).2, hparse]

/-- `parseInt` of the rendering of `n` is `n`. -/
theorem jsParseInt_natDec (n : Nat) : jsParseInt (natDec n) = some (n : Int) := by
  rw [jsParseInt_digits (natDec_ne_nil n) (natDec_digits n), decVal_natDec]

/-- The separator does not occur in the digits of `natDec`. -/
theorem natDec_no_dash (n : Nat) : '-' ∉ natDec n := by
  intro hmem
  exact absurd (natDec_digits n '-' hmem) (by decide)

/-! ## Lemmas: `splitChar` and `replaceFirst` -/

/-- `splitChar` always returns at least one piece. -/
theorem splitChar_ne_nil (c : Char) (l : List Char) : splitChar c l ≠ [] := by
  induction l with
  | nil => simp [splitChar]
  | cons x xs ih =>
    rw [splitChar]
    rcases h : splitChar c xs with _ | ⟨y, ys⟩
    · exact absurd h ih
    · by_cases hx : x = c <;> simp [hx]

/-- The separator never occurs inside a piece of `splitChar`. -/
theorem splitChar_no_sep (c : Char) : ∀ l piece, piece ∈ splitChar c l → c ∉ piece := by
  intro l
  induction l with
  | nil =>
    intro piece hp
    simp [splitChar] at hp
    simp [hp]
  | cons x xs ih =>
    intro piece hp
    rw [splitChar] at hp
    rcases h : splitChar c xs with _ | ⟨y, ys⟩
    · exact absurd h (splitChar_ne_nil c xs)
    · rw [h] at hp
      by_cases hx : x = c
      · simp [hx] at hp
        rcases hp with rfl | hp | hp
        · simp
        · exact ih piece (by rw [h]; simp [hp])
        · exact ih piece (by rw [h]; simp [hp])
      · simp [hx] at hp
        rcases hp with rfl | hp
        · intro hmem
          rcases List.mem_cons.mp hmem with rfl | hmem
          · exact hx rfl
          · exact ih y (by rw [h]; simp) hmem
        · exact ih piece (by rw [h]; simp [hp])

/-- Splitting a separator-free list yields that single piece. -/
theorem splitChar_of_not_mem {c : Char} : ∀ {l : List Char}, c ∉ l → splitChar c l = [l] := by
  intro l
  induction l with
  | nil => intro _; rfl
  | cons x xs ih =>
    intro h
    have hx : x ≠ c := fun e => h (by simp [e])
    have hxs : c ∉ xs := fun m => h (List.mem_cons_of_mem x m)
    rw [splitChar, ih hxs]
    simp [hx]

/-- Splitting at the first separator occurrence. -/
theorem splitChar_append {c : Char} : ∀ {a : List Char}, c ∉ a → ∀ b, splitChar c (a ++ c :: b) = a :: splitChar c b := by
  intro a
  induction a with
  | nil =>
    intro _ b
    rw [List.nil_append, splitChar]
    rcases h : splitChar c b with _ | ⟨y, ys⟩
    · exact absurd h (splitChar_ne_nil c b)
    · simp
  | cons x xs ih =>
    intro h b
    have hx : x ≠ c := fun e => h (by simp [e])
    have hxs : c ∉ xs := fun m => h (List.mem_cons_of_mem x m)
    rw [List.cons_append, splitChar, ih hxs b]
    simp [hx]

/-- Removing a pattern that sits at the front of the string. -/
theorem replaceFirst_append (pat rest : List Char) (h : pat ≠ []) :
    replaceFirst pat (pat ++ rest) = rest := by
  obtain ⟨p, ps, rfl⟩ : ∃ p ps, pat = p :: ps := by
    cases pat with
    | nil => exact absurd rfl h
    | cons p ps => exact ⟨p, ps, rfl⟩
  have hpre : (p :: ps).isPrefixOf (p :: (ps ++ rest)) = true := by
    rw [List.isPrefixOf_iff_prefix]
    exact List.prefix_append (p :: ps) rest
  rw [List.cons_append, replaceFirst, hpre]
  simp only [if_true]
  show (((p :: ps) ++ rest).drop (p :: ps).length) = rest
  exact List.drop_left (p :: ps) rest

/-! ## Lemmas: range negotiation -/

/-- Character data of a well-formed single-range header
`bytes=<start>-<end>` with decimal bounds (`none` is an absent end). -/
def rangeHeaderData (a : Nat) (b : Option Nat) : List Char :=
  "bytes=".data ++ natDec a ++ '-' :: (match b with | some n => natDec n | none => [])

/-- What the negotiation of lines 62-72 does on a well-formed header:
reject iff the start or an explicitly supplied end reaches the size,
an absent end defaulting to `size - 1`. -/
theorem negotiateRange_wellformed (size : Int) (a : Nat) (b : Option Nat) (h : String)
    (hdata : h.data = rangeHeaderData a b) :
    negotiateRange (some h) size =
      if size ≤ (a : Int) ∨ (∃ n, b = some n ∧ size ≤ (n : Int)) then .unsat
      else .ranged (some (a : Int)) (match b with | some n => some ((n : Nat) : Int) | none => some (size - 1)) := by
  cases b with
  | some n =>
    have hrf : replaceFirst "bytes=".data h.data = natDec a ++ '-' :: natDec n := by
      rw [hdata]
      exact replaceFirst_append _ _ (by decide)
    have hsplit : splitChar '-' (natDec a ++ '-' :: natDec n) = [natDec a, natDec n] := by
      rw [splitChar_append (natDec_no_dash a), splitChar_of_not_mem (natDec_no_dash n)]
    rw [negotiateRange, hrf, hsplit]
    simp only [List.headD, List.getD, List.get?, jsParseInt_natDec, natDec_ne_nil n,
      ne_eq, not_false_eq_true, if_true, Option.getD_some]
    by_cases h1 : size ≤ (a : Int) <;> by_cases h2 : size ≤ (n : Int) <;>
      simp [jsGe, h1, h2]
  | none =>
    have hrf : replaceFirst "bytes=".data h.data = natDec a ++ '-' :: [] := by
      rw [hdata]
      exact replaceFirst_append _ _ (by decide)
    have hsplit : splitChar '-' (natDec a ++ '-' :: []) = [natDec a, []] := by
      rw [splitChar_append (natDec_no_dash a)]
      rfl
    rw [negotiateRange, hrf, hsplit]
    have hlast : ¬ (size ≤ size - 1) := by omega
    simp only [List.headD, List.getD, List.get?, jsParseInt_natDec, Option.getD_some]
    by_cases h1 : size ≤ (a : Int) <;>
      simp [jsGe, h1, hlast]

/-- `parseInt` cannot produce a negative number from a string without a
minus sign. -/
theorem jsParseInt_nonneg {cs : List Char} (hnd : '-' ∉ cs) {i : Int}
    (h : jsParseInt cs = some i) : 0 ≤ i := by
  unfold jsParseInt at h
  split at h
  · cases h
  · rename_i c rest hdw
    have hcmem : c ∈ cs := (List.dropWhile_sublist (p := jsWhitespace) (l := cs)).mem (hdw ▸ List.mem_cons_self c rest)
    have hc : ¬ (c = '-') := fun e => hnd (e ▸ hcmem)
    rw [if_neg hc] at h
    by_cases hp : c = '+'
    · rw [if_pos hp] at h
      cases hpd : parseDigits rest with
      | none => rw [hpd] at h; cases h
      | some m =>
        rw [hpd] at h
        simp only [Option.map_some', Option.some.injEq] at h
        omega
    · rw [if_neg hp] at h
      cases hpd : parseDigits (c :: rest) with
      | none => rw [hpd] at h; cases h
      | some m =>
        rw [hpd] at h
        simp only [Option.map_some', Option.some.injEq] at h
        omega

/-- Whatever the header, a `ranged` outcome only carries bounds below the
size, and its start (when it parsed at all) is non-negative. -/
theorem negotiateRange_ranged_bounds (h : String) (size : Int) (s e : Option Int)
    (hn : negotiateRange (some h) size = .ranged s e) :
    (∀ i, s = some i → 0 ≤ i ∧ i < size) ∧ (∀ i, e = some i → i < size) := by
  rw [negotiateRange] at hn
  by_cases hg : (jsGe (jsParseInt ((splitChar '-' (replaceFirst "bytes=".data h.data)).headD [])) size ||
      jsGe (if (splitChar '-' (replaceFirst "bytes=".data h.data)).getD 1 [] ≠ [] then
        jsParseInt ((splitChar '-' (replaceFirst "bytes=".data h.data)).getD 1 [])
      else some (size - 1)) size) = true
  · rw [if_pos hg] at hn
    cases hn
  · rw [if_neg hg] at hn
    obtain ⟨hs, he⟩ := RangeOutcome.ranged.inj hn
    rw [Bool.or_eq_true, not_or] at hg
    obtain ⟨hgs, hge⟩ := hg
    constructor
    · intro i hi
      have hhead : (splitChar '-' (replaceFirst "bytes=".data h.data)).headD [] ∈
          splitChar '-' (replaceFirst "bytes=".data h.data) := by
        cases hsp : splitChar '-' (replaceFirst "bytes=".data h.data) with
        | nil => exact absurd hsp (splitChar_ne_nil _ _)
        | cons p ps => simp
      have hnd : '-' ∉ (splitChar '-' (replaceFirst "bytes=".data h.data)).headD [] :=
        splitChar_no_sep '-' _ _ hhead
      refine ⟨jsParseInt_nonneg hnd (by rw [hs, hi]), ?_⟩
      have : jsGe (some i) size = false := by
        rw [← hi, ← hs]
        exact Bool.not_eq_true _ ▸ hgs
      simp [jsGe] at this
      omega
    · intro i hi
      have : jsGe (some i) size = false := by
        rw [← hi, ← he]
        exact Bool.not_eq_true _ ▸ hge
      simp [jsGe] at this
      omega

/-! ## Lemmas: response headers -/

/-- Reading a header just set yields its value. -/
theorem getHeader_setHeader_self (r : Response) (n v : String) :
    (r.setHeader n v).getHeader n = some v := by
  simp [Response.setHeader, Response.getHeader, lookupHeader]

/-- Removing one header name does not change lookups of another. -/
theorem lookupHeader_removeHeader (l : List (String × String)) (n n' : String) (h : n' ≠ n) :
    lookupHeader n' (removeHeader n l) = lookupHeader n' l := by
  induction l with
  | nil => rfl
  | cons x xs ih =>
    by_cases hx : x.fst = n
    · have hx' : ¬ (x.fst = n') := by rw [hx]; exact Ne.symm h
      rw [removeHeader, if_pos hx, lookupHeader, if_neg hx', ih]
    · rw [removeHeader, if_neg hx, lookupHeader, lookupHeader]
      by_cases hx' : x.fst = n'
      · rw [if_pos hx', if_pos hx']
      · rw [if_neg hx', if_neg hx', ih]

/-- Setting one header does not change reads of another. -/
theorem getHeader_setHeader_other (r : Response) (n n' v : String) (h : n' ≠ n) :
    (r.setHeader n v).getHeader n' = r.getHeader n' := by
  rw [Response.setHeader, Response.getHeader, lookupHeader]
  simp only []
  rw [if_neg (fun e : n = n' => h e.symm)]
  exact lookupHeader_removeHeader r.headers n n' h

/-! ## Lemmas: the ETag validator -/

/-- Splitting at the first `-` of a dash-free-prefixed concatenation is
unambiguous. -/
theorem append_cons_dash_inj : ∀ (a₁ a₂ b₁ b₂ : List Char), '-' ∉ a₁ → '-' ∉ a₂ →
    a₁ ++ '-' :: b₁ = a₂ ++ '-' :: b₂ → a₁ = a₂ ∧ b₁ = b₂ := by
  intro a₁
  induction a₁ with
  | nil =>
    intro a₂ b₁ b₂ _ h₂ heq
    cases a₂ with
    | nil => simpa using heq
    | cons x xs =>
      rw [List.nil_append, List.cons_append] at heq
      obtain ⟨hx, _⟩ := List.cons.inj heq
      refine absurd ?_ h₂
      rw [← hx]
      exact List.mem_cons_self '-' xs
  | cons y ys ih =>
    intro a₂ b₁ b₂ h₁ h₂ heq
    cases a₂ with
    | nil =>
      rw [List.cons_append, List.nil_append] at heq
      obtain ⟨hy, _⟩ := List.cons.inj heq
      refine absurd ?_ h₁
      rw [hy]
      exact List.mem_cons_self '-' ys
    | cons x xs =>
      rw [List.cons_append, List.cons_append] at heq
      obtain ⟨hyx, htl⟩ := List.cons.inj heq
      have h₁' : '-' ∉ ys := fun m => h₁ (List.mem_cons_of_mem y m)
      have h₂' : '-' ∉ xs := fun m => h₂ (List.mem_cons_of_mem x m)
      obtain ⟨he, hb⟩ := ih xs b₁ b₂ h₁' h₂' htl
      exact ⟨by rw [hyx, he], hb⟩

/-- Character data of the integer rendering. -/
theorem intStr_data (i : Int) :
    (intStr i).data = if i < 0 then '-' :: natDec i.natAbs else natDec i.natAbs := by
  unfold intStr
  split <;> rfl

/-- The integer rendering is injective. -/
theorem intStr_data_inj {i j : Int} (h : (intStr i).data = (intStr j).data) : i = j := by
  rw [intStr_data, intStr_data] at h
  by_cases hi : i < 0 <;> by_cases hj : j < 0
  · rw [if_pos hi, if_pos hj] at h
    have := natDec_inj (List.cons.inj h).2
    omega
  · rw [if_pos hi, if_neg hj] at h
    have hmem : '-' ∈ natDec j.natAbs := by
      rw [← h]
      exact List.mem_cons_self _ _
    exact absurd hmem (natDec_no_dash _)
  · rw [if_neg hi, if_pos hj] at h
    have hmem : '-' ∈ natDec i.natAbs := by
      rw [h]
      exact List.mem_cons_self _ _
    exact absurd hmem (natDec_no_dash _)
  · rw [if_neg hi, if_neg hj] at h
    have := natDec_inj h
    omega

/-- Character data of the computed validator. -/
theorem computeEtag_data (s : Nat) (m : Int) :
    (computeEtag s m).data = 'W' :: '/' :: '"' :: (natDec s ++ '-' :: ((intStr m).data ++ ['"'])) := by
  unfold computeEtag
  simp [String.data_append, natStr]

/-- The validator is a deterministic and injective function of size and
mtime: two stats produce the same string exactly when both inputs agree. -/
theorem computeEtag_inj_iff (s₁ s₂ : Nat) (m₁ m₂ : Int) :
    computeEtag s₁ m₁ = computeEtag s₂ m₂ ↔ (s₁ = s₂ ∧ m₁ = m₂) := by
  constructor
  · intro h
    have hd := congrArg String.data h
    rw [computeEtag_data, computeEtag_data] at hd
    simp only [List.cons.injEq, true_and] at hd
    obtain ⟨hs, hm⟩ := append_cons_dash_inj _ _ _ _ (natDec_no_dash s₁) (natDec_no_dash s₂) hd
    refine ⟨natDec_inj hs, intStr_data_inj (List.append_cancel_right hm)⟩
  · rintro ⟨rfl, rfl⟩
    rfl

/-! ## Claim C1 -/

/-- Concrete scenario for C1: a mount rooted at `/srv/static` and a
request whose traversal resolves to the sibling directory
`/srv/static-secret`, which shares the root's string prefix. -/
def c1Fs : Fs := [("/srv/static-secret/creds.txt", .file [104, 105] 0)]

/-- Mount registered for C1's scenario. -/
def c1Mount : Mount := ⟨"/assets", "/srv/static", mkStaticOptions {}⟩

/-- Request for C1's scenario. -/
def c1Req : Request := ⟨"/assets/../static-secret/creds.txt", none, none⟩

/-- C1 is false as stated: this request's resolved absolute path
`/srv/static-secret/creds.txt` is neither equal to nor a descendant of
the mount root `/srv/static`, yet `#handleStaticFiles` serves it with
status 200 — the line-134 check only compares string prefixes, and the
escaping path shares the root's prefix. -/
theorem c1_counterexample :
    resolveMountPath c1Mount c1Req.path = "/srv/static-secret/creds.txt" ∧
    isDescendantOrEqual "/srv/static-secret/creds.txt" c1Mount.dirPath = false ∧
    handleStatus (handleStaticFiles c1Fs c1Req [c1Mount]) = some 200 := by
  refine ⟨by decide, by decide, by decide⟩

/-- C1 (amended): `#handleStaticFiles` responds 403 Forbidden (and never
200) exactly for resolved paths that fail the source's string-prefix
test against the mount root; escaping paths that share the root
directory's string prefix (such as a sibling directory) pass the test
and are not rejected. -/
theorem c1_traversal_prefix_forbidden (fs : Fs) (req : Request) (m : Mount) (rest : List Mount)
    (hmatch : jsStartsWith req.path m.urlPath = true)
    (hesc : jsStartsWith (resolveMountPath m req.path) m.dirPath = false) :
    handleStaticFiles fs req (m :: rest) = .error (.httpError 403 "Forbidden") := by
  rw [handleStaticFiles]
  rw [if_pos hmatch]
  rw [if_pos (by rw [show pathJoin m.dirPath (jsSliceFrom req.path m.urlPath.data.length) = resolveMountPath m req.path from rfl, hesc]; exact fun h => nomatch h)]

/-- Witness for the amended C1 at a concrete escaping request. -/
theorem c1_traversal_prefix_forbidden_witness :
    handleStaticFiles c1Fs ⟨"/assets/../../etc/passwd", none, none⟩ [c1Mount] =
      .error (.httpError 403 "Forbidden") :=
  c1_traversal_prefix_forbidden c1Fs ⟨"/assets/../../etc/passwd", none, none⟩ c1Mount []
    (by decide) (by decide)

/-! ## Claim C2 -/

/-- C2 is false as stated: against a file of size 10 the header
`bytes=5-2` produces a Partial outcome whose byte range has
start = 5 > end = 2, violating `start ≤ end` (the code never compares
the two bounds). -/
theorem c2_counterexample :
    negotiateRange (some "bytes=5-2") 10 = .ranged (some 5) (some 2) ∧ ¬ ((5 : Int) ≤ 2) := by
  refine ⟨by decide, by decide⟩

/-- C2 (amended): whenever the negotiation of lines 62-72 produces a
Partial outcome, every bound that is an actual number is below the file
size, and the start bound is additionally non-negative; but `start ≤ end`
is not enforced, and a malformed bound can remain NaN and still pass
(NaN comparisons are false). -/
theorem c2_ranged_bounds (h : String) (size : Int) (s e : Option Int)
    (hn : negotiateRange (some h) size = .ranged s e) :
    (∀ i, s = some i → 0 ≤ i ∧ i < size) ∧ (∀ i, e = some i → i < size) :=
  negotiateRange_ranged_bounds h size s e hn

/-- Witness for the amended C2 on `bytes=3-7` against size 10. -/
theorem c2_ranged_bounds_witness :
    (0 ≤ (3 : Int) ∧ (3 : Int) < 10) ∧ (7 : Int) < 10 :=
  ⟨(c2_ranged_bounds "bytes=3-7" 10 (some 3) (some 7) (by decide)).1 3 rfl,
   (c2_ranged_bounds "bytes=3-7" 10 (some 3) (some 7) (by decide)).2 7 rfl⟩

/-! ## Claim C9 -/

/-- Concrete scenario for C9: a mount and a request it serves. -/
def c9Fs : Fs := [("/r9/f.txt", .file [66] 0)]

/-- Mount for C9's scenario. -/
def c9Mount : Mount := ⟨"/r9", "/r9", mkStaticOptions {}⟩

/-- Request for C9's scenario. -/
def c9Req : Request := ⟨"/r9/f.txt", none, none⟩

/-- C9: when `#handleStaticFiles` matches a mount and serves a file its
value is `undefined` — falsy, indistinguishable by the line-180 guard
`if (staticServed) return` from the explicit `return false` of the
no-match case — so the guard never stops and request processing
continues past an already-answered request (shown on a request served
with 200). -/
theorem c9_return_value_falsy :
    (∀ hr : HandleResult, listenGuardStops (handleReturnValue hr) = false) ∧
    handleReturn (handleStaticFiles c9Fs c9Req [c9Mount]) = some JsValue.undefined ∧
    handleStatus (handleStaticFiles c9Fs c9Req [c9Mount]) = some 200 ∧
    handleReturnValue HandleResult.noMatch = JsValue.boolean false := by
  refine ⟨fun hr => by cases hr <;> rfl, by decide, by decide, rfl⟩

/-! ## Claim C10 -/

/-- Filesystem for C10: a directory and a regular file. -/
def c10Fs : Fs := [("/d", .dir), ("/f", .file [9] 0)]

/-- C10 is false as stated: `res.download` on a path that resolves to a
directory fails with HttpError 404 (its own stat check fires before the
unresolvable `req`), not 500. -/
theorem c10_counterexample :
    resDownload c10Fs "/" "/d" enhanceResponseReqBinding = .error (.httpError 404 "File Not Found") ∧
    (404 : Nat) ≠ 500 := by
  refine ⟨by rfl, by decide⟩

/-- C10 (amended): with no `req` in scope inside `#enhanceResponse`,
`res.sendFile` fails with HttpError 500 ("req is not defined") on every
input and `res.download` fails on every input without ever reaching the
file-streaming call — as HttpError 404 when the resolved path exists but
is not a regular file, and as HttpError 500 otherwise (in particular on
every regular file). -/
theorem c10_helpers_fail :
    (∀ (fs : Fs) (cwd fp : String) (options : StaticOptions),
      resSendFile fs cwd fp options enhanceResponseReqBinding =
        .error (.httpError 500 "req is not defined")) ∧
    (∀ (fs : Fs) (cwd fp : String),
      ∃ st msg, resDownload fs cwd fp enhanceResponseReqBinding = .error (.httpError st msg)) ∧
    (∀ (fs : Fs) (cwd fp : String) (content : List Nat) (mtime : Int),
      fsGet fs (pathResolve cwd fp) = some (.file content mtime) →
      resDownload fs cwd fp enhanceResponseReqBinding =
        .error (.httpError 500 "req is not defined")) := by
  refine ⟨fun fs cwd fp options => rfl, ?_, ?_⟩
  · intro fs cwd fp
    cases hstat : statFs fs (pathResolve cwd fp) with
    | error e =>
      exact ⟨(errStatus e).getD 500, errMessage e, by simp [resDownload, resDownloadInner, hstat, wrapHelperError]⟩
    | ok stats =>
      cases hf : stats.isFile with
      | true =>
        refine ⟨500, "req is not defined", ?_⟩
        simp [resDownload, resDownloadInner, hstat, hf, enhanceResponseReqBinding, wrapHelperError,
          errStatus, errMessage]
      | false =>
        refine ⟨404, "File Not Found", ?_⟩
        simp [resDownload, resDownloadInner, hstat, hf, wrapHelperError, errStatus, errMessage]
  · intro fs cwd fp content mtime hget
    have hstat : statFs fs (pathResolve cwd fp) = .ok ⟨true, false, content.length, mtime⟩ := by
      rw [statFs, hget]
    simp [resDownload, resDownloadInner, hstat, enhanceResponseReqBinding, wrapHelperError,
      errStatus, errMessage]

/-- Witness for the amended C10: concrete applications to the model
filesystem, a regular-file path for the third conjunct. -/
theorem c10_helpers_fail_witness :
    resSendFile c10Fs "/" "/f" undefinedOptions enhanceResponseReqBinding =
      .error (.httpError 500 "req is not defined") ∧
    (∃ st msg, resDownload c10Fs "/" "/d" enhanceResponseReqBinding = .error (.httpError st msg)) ∧
    resDownload c10Fs "/" "/f" enhanceResponseReqBinding =
      .error (.httpError 500 "req is not defined") :=
  ⟨c10_helpers_fail.1 c10Fs "/" "/f" undefinedOptions,
   c10_helpers_fail.2.1 c10Fs "/" "/d",
   c10_helpers_fail.2.2 c10Fs "/" "/f" [9] 0 (by decide)⟩

/-! ## Claim C3 -/

/-- C3: on a single-range request `bytes=<start>-<end>` the negotiation
is Unsatisfiable exactly when `start >= size` or an explicitly supplied
`end >= size` (an absent end is clamped to `size - 1` and satisfiable
whenever `start < size`); and when `#serveStaticFile` reaches an
Unsatisfiable outcome for an existing file it responds 416 with
`Content-Range: bytes */<size>` and an empty body. -/
theorem c3_unsatisfiable_ranges :
    (∀ (size : Int) (a : Nat) (b : Option Nat) (h : String), h.data = rangeHeaderData a b →
      (negotiateRange (some h) size = .unsat ↔
        (size ≤ (a : Int) ∨ ∃ n, b = some n ∧ size ≤ (n : Int)))) ∧
    (∀ (fs : Fs) (req : Request) (filePath : String) (options : StaticOptions)
      (content : List Nat) (mtime : Int),
      fsGet fs filePath = some (.file content mtime) →
      req.ifNoneMatch = none →
      negotiateRange req.range (content.length : Int) = .unsat →
      respStatus (serveStaticFile fs req filePath options) = some 416 ∧
      respHeader "Content-Range" (serveStaticFile fs req filePath options) =
        some ("bytes */" ++ natStr content.length) ∧
      respBody (serveStaticFile fs req filePath options) = some []) := by
  constructor
  · intro size a b h hd
    rw [negotiateRange_wellformed size a b h hd]
    by_cases hc : (size ≤ (a : Int) ∨ ∃ n, b = some n ∧ size ≤ (n : Int))
    · simp [hc]
    · simp [hc]
  · intro fs req filePath options content mtime hget hinm hneg
    have hstat : statFs fs filePath = .ok ⟨true, false, content.length, mtime⟩ := by
      rw [statFs, hget]
    have hserve : serveStaticFile fs req filePath options =
        serveAfterStat fs req filePath options ⟨true, false, content.length, mtime⟩ := by
      simp [serveStaticFile, hstat]
    rw [hserve]
    rw [serveAfterStat]
    simp only [hinm]
    rw [if_neg (by simp)]
    simp only [hneg]
    refine ⟨rfl, ?_, rfl⟩
    simp [respHeader, Response.getHeader, Response.setHeader, lookupHeader]

/-- Filesystem for C3's witness: a three-byte file. -/
def c3Fs : Fs := [("/w3/f.txt", .file [65, 66, 67] 0)]

/-- Request for C3's witness: start 9 against size 3. -/
def c3Req : Request := ⟨"/w3/f.txt", none, some "bytes=9-"⟩

/-- Witness for C3: `bytes=9-` against a 3-byte file is unsatisfiable
and served as 416 / `Content-Range: bytes */3` with an empty body. -/
theorem c3_unsatisfiable_ranges_witness :
    negotiateRange (some "bytes=9-") ((3 : Nat) : Int) = .unsat ∧
    respStatus (serveStaticFile c3Fs c3Req "/w3/f.txt" (mkStaticOptions {})) = some 416 ∧
    respHeader "Content-Range" (serveStaticFile c3Fs c3Req "/w3/f.txt" (mkStaticOptions {})) =
      some ("bytes */" ++ natStr 3) ∧
    respBody (serveStaticFile c3Fs c3Req "/w3/f.txt" (mkStaticOptions {})) = some [] := by
  refine ⟨(c3_unsatisfiable_ranges.1 ((3 : Nat) : Int) 9 none "bytes=9-" (by decide)).mpr
      (Or.inl (by decide)), ?_⟩
  exact c3_unsatisfiable_ranges.2 c3Fs c3Req "/w3/f.txt" (mkStaticOptions {}) [65, 66, 67] 0
    (by decide) rfl (by decide)

/-! ## Claim C4 -/

/-- JS stringification of a cast natural number. -/
theorem jsNumStr_natCast (n : Nat) : jsNumStr (some (n : Int)) = natStr n := by
  rw [jsNumStr, intStr, if_neg (by omega)]
  rw [natStr]
  norm_num

/-- Record updates of status and body leave header reads unchanged. -/
theorem getHeader_withStatusBody (r : Response) (st : Nat) (bd : List Nat) (n : String) :
    Response.getHeader { r with status := st, body := bd } n = r.getHeader n := rfl

/-- C4: a satisfiable single-range request (explicit or implicit end) is
answered with 206 Partial Content, `Content-Range: bytes
<start>-<end>/<size>`, `Accept-Ranges: bytes`, Content-Length equal to
`end - start + 1`, and exactly that byte window of the file as body; an
absent end stands for `size - 1`. -/
theorem c4_partial_content (fs : Fs) (req : Request) (filePath : String) (options : StaticOptions)
    (content : List Nat) (mtime : Int) (a : Nat) (b : Option Nat) (eidx : Nat) (h : String)
    (hget : fsGet fs filePath = some (.file content mtime))
    (hinm : req.ifNoneMatch = none)
    (hrange : req.range = some h)
    (hdata : h.data = rangeHeaderData a b)
    (he : eidx = b.getD (content.length - 1))
    (hsat1 : a ≤ eidx) (hsat2 : eidx < content.length) :
    respStatus (serveStaticFile fs req filePath options) = some 206 ∧
    respHeader "Content-Range" (serveStaticFile fs req filePath options) =
      some ("bytes " ++ natStr a ++ "-" ++ natStr eidx ++ "/" ++ natStr content.length) ∧
    respHeader "Accept-Ranges" (serveStaticFile fs req filePath options) = some "bytes" ∧
    respHeader "Content-Length" (serveStaticFile fs req filePath options) =
      some (natStr (eidx - a + 1)) ∧
    respBody (serveStaticFile fs req filePath options) =
      some ((content.drop a).take (eidx - a + 1)) ∧
    ((content.drop a).take (eidx - a + 1)).length = eidx - a + 1 := by
  have hcond : ¬ (((content.length : Nat) : Int) ≤ (a : Int) ∨
      ∃ n, b = some n ∧ ((content.length : Nat) : Int) ≤ (n : Int)) := by
    rintro (hle | ⟨n, hn, hle⟩)
    · omega
    · rw [hn] at he
      simp only [Option.getD_some] at he
      omega
  have hneg : negotiateRange req.range ((content.length : Nat) : Int) =
      .ranged (some (a : Int)) (some (eidx : Int)) := by
    rw [hrange, negotiateRange_wellformed _ a b h hdata, if_neg hcond]
    cases b with
    | some e' =>
      simp only [Option.getD_some] at he
      rw [he]
    | none =>
      simp only [Option.getD_none] at he
      have hcast : ((content.length : Nat) : Int) - 1 = ((eidx : Nat) : Int) := by omega
      rw [hcast]
  have hstat : statFs fs filePath = .ok ⟨true, false, content.length, mtime⟩ := by
    rw [statFs, hget]
  have hserve : serveStaticFile fs req filePath options =
      serveAfterStat fs req filePath options ⟨true, false, content.length, mtime⟩ := by
    simp [serveStaticFile, hstat]
  rw [hserve, serveAfterStat]
  simp only [hinm]
  rw [if_neg (by simp)]
  simp only [hneg]
  have hsub : jsAdd (jsSub (some (eidx : Int)) (some (a : Int))) (some 1) =
      some (((eidx - a + 1 : Nat) : Int)) := by
    simp only [jsSub, jsAdd]
    congr 1
    omega
  refine ⟨rfl, ?_, ?_, ?_, ?_, ?_⟩
  · show Response.getHeader _ "Content-Range" = _
    rw [getHeader_withStatusBody,
      getHeader_setHeader_other _ _ _ _ (by decide),
      getHeader_setHeader_other _ _ _ _ (by decide),
      getHeader_setHeader_self]
    rw [jsNumStr_natCast, jsNumStr_natCast]
  · show Response.getHeader _ "Accept-Ranges" = _
    rw [getHeader_withStatusBody,
      getHeader_setHeader_other _ _ _ _ (by decide),
      getHeader_setHeader_self]
  · show Response.getHeader _ "Content-Length" = _
    rw [getHeader_withStatusBody, getHeader_setHeader_self, hsub, jsNumStr_natCast]
  · show some (fileSlice (fileContent fs filePath) (some (a : Int)) (some (eidx : Int))) = _
    rw [fileSlice]
    have h1 : ((a : Int)).toNat = a := by omega
    have h2 : (((eidx : Int)) - ((a : Int)) + 1).toNat = eidx - a + 1 := by omega
    rw [h1, h2]
    congr 1
    rw [fileContent, hget]
  · rw [List.length_take, List.length_drop]
    omega

/-- Filesystem for C4's witness: the bytes 65, 66, 67. -/
def c4Fs : Fs := [("/w4/f.bin", .file [65, 66, 67] 0)]

/-- Request for C4's witness: `Range: bytes=0-0`. -/
def c4Req : Request := ⟨"/w4/f.bin", none, some "bytes=0-0"⟩

/-- Witness for C4: `bytes=0-0` on a non-empty file yields 206,
`Content-Range: bytes 0-0/3`, Content-Length 1, and exactly the file's
first byte. -/
theorem c4_partial_content_witness :
    respStatus (serveStaticFile c4Fs c4Req "/w4/f.bin" (mkStaticOptions {})) = some 206 ∧
    respHeader "Content-Range" (serveStaticFile c4Fs c4Req "/w4/f.bin" (mkStaticOptions {})) =
      some ("bytes " ++ natStr 0 ++ "-" ++ natStr 0 ++ "/" ++ natStr 3) ∧
    respHeader "Accept-Ranges" (serveStaticFile c4Fs c4Req "/w4/f.bin" (mkStaticOptions {})) =
      some "bytes" ∧
    respHeader "Content-Length" (serveStaticFile c4Fs c4Req "/w4/f.bin" (mkStaticOptions {})) =
      some (natStr 1) ∧
    respBody (serveStaticFile c4Fs c4Req "/w4/f.bin" (mkStaticOptions {})) = some [65] ∧
    ([65] : List Nat).length = 1 :=
  c4_partial_content c4Fs c4Req "/w4/f.bin" (mkStaticOptions {}) [65, 66, 67] 0 0 (some 0) 0
    "bytes=0-0" (by decide) rfl rfl (by decide) rfl (le_refl 0) (by decide)

/-! ## Claim C5 -/

/-- C5: the ETag validator `W/"<size>-<mtime>"` is a deterministic
function of the stat's size and mtime — equal inputs give
character-identical strings and it changes whenever either input
changes — and a request whose If-None-Match equals the computed
validator is answered 304 with an empty body. -/
theorem c5_etag :
    (∀ (s₁ s₂ : Nat) (m₁ m₂ : Int),
      computeEtag s₁ m₁ = computeEtag s₂ m₂ ↔ (s₁ = s₂ ∧ m₁ = m₂)) ∧
    (∀ (fs : Fs) (req : Request) (filePath : String) (options : StaticOptions)
      (content : List Nat) (mtime : Int),
      fsGet fs filePath = some (.file content mtime) →
      options.etag = true →
      req.ifNoneMatch = some (computeEtag content.length mtime) →
      respStatus (serveStaticFile fs req filePath options) = some 304 ∧
      respBody (serveStaticFile fs req filePath options) = some []) := by
  refine ⟨computeEtag_inj_iff, ?_⟩
  intro fs req filePath options content mtime hget hetag hinm
  have hstat : statFs fs filePath = .ok ⟨true, false, content.length, mtime⟩ := by
    rw [statFs, hget]
  have hserve : serveStaticFile fs req filePath options =
      serveAfterStat fs req filePath options ⟨true, false, content.length, mtime⟩ := by
    simp [serveStaticFile, hstat]
  rw [hserve, serveAfterStat]
  rw [if_pos ⟨hetag, hinm⟩]
  exact ⟨rfl, rfl⟩

/-- Filesystem for C5's witness. -/
def c5Fs : Fs := [("/w5/f.txt", .file [1, 2] 7)]

/-- Request for C5's witness: If-None-Match equal to the validator of a
2-byte file with mtime 7. -/
def c5Req : Request := ⟨"/w5/f.txt", some (computeEtag 2 7), none⟩

/-- Witness for C5: the validator is stable and discriminating on
concrete inputs, and the conditional request is served 304 with an
empty body. -/
theorem c5_etag_witness :
    (computeEtag 2 7 = computeEtag 2 7 ↔ ((2 : Nat) = 2 ∧ (7 : Int) = 7)) ∧
    respStatus (serveStaticFile c5Fs c5Req "/w5/f.txt" (mkStaticOptions {})) = some 304 ∧
    respBody (serveStaticFile c5Fs c5Req "/w5/f.txt" (mkStaticOptions {})) = some [] :=
  ⟨c5_etag.1 2 2 7 7,
   c5_etag.2 c5Fs c5Req "/w5/f.txt" (mkStaticOptions {}) [1, 2] 7 (by decide) rfl rfl⟩

/-! ## Claim C6 -/

/-- Filesystem for C6: both mount roots hold the dotfile `.h`. -/
def c6Fs : Fs := [("/r1/.h", .file [1] 0), ("/r2/.h", .file [2] 0)]

/-- First registered mount for C6: default options (dotfiles ignore). -/
def c6MountA : Mount := ⟨"/p", "/r1", mkStaticOptions {}⟩

/-- Second registered mount for C6: dotfiles allowed. -/
def c6MountB : Mount := ⟨"/p", "/r2", mkStaticOptions { dotfiles := some "allow" }⟩

/-- Request for C6's scenario. -/
def c6Req : Request := ⟨"/p/.h", none, none⟩

/-- Filesystem for C6's continue case: the first root lacks the file. -/
def c6FsMissing : Fs := [("/r2/.h", .file [2] 0)]

/-- C6 is false as stated: the first mount fails with the NotFound-kind
`HttpError(404)` raised for a dotfile denied by the `ignore` policy, yet
the registry does not continue to the second mount (which alone would
serve the file with 200) — the error propagates and terminates the
search, because line 162 only recovers errors with `code === 'ENOENT'`
and an HttpError carries no such code. -/
theorem c6_counterexample :
    tryServeMount c6Fs c6Req c6MountA (resolveMountPath c6MountA c6Req.path) =
      .error (.httpError 404 "Not Found") ∧
    handleError (handleStaticFiles c6Fs c6Req [c6MountA, c6MountB]) =
      some (.httpError 404 "Not Found") ∧
    handleStatus (handleStaticFiles c6Fs c6Req [c6MountB]) = some 200 := by
  refine ⟨by rfl, by decide, by decide⟩

/-- C6 (amended): within the mount iteration, a failing mount leads to
the next registered mount exactly when the failure carries the
filesystem error code ENOENT (the raw stat rejection for a missing
file); every other failure — including the `HttpError(404)`s raised for
ignored dotfiles, non-files, and missing directory indexes, as well as
403 and 416 — terminates the search and propagates unchanged. -/
theorem c6_propagation (fs : Fs) (req : Request) (m : Mount) (rest : List Mount) (e : JsErr)
    (hmatch : jsStartsWith req.path m.urlPath = true)
    (hcontain : jsStartsWith (resolveMountPath m req.path) m.dirPath = true)
    (htry : tryServeMount fs req m (resolveMountPath m req.path) = .error e) :
    handleStaticFiles fs req (m :: rest) =
      (if errCode e = some "ENOENT" then handleStaticFiles fs req rest else .error e) := by
  rw [handleStaticFiles, if_pos hmatch]
  rw [if_neg (by
    rw [show pathJoin m.dirPath (jsSliceFrom req.path m.urlPath.data.length) =
      resolveMountPath m req.path from rfl, hcontain]
    exact fun hn => hn rfl)]
  rw [show pathJoin m.dirPath (jsSliceFrom req.path m.urlPath.data.length) =
    resolveMountPath m req.path from rfl, htry]

/-- Witness for the amended C6: the ignore-dotfile HttpError terminates
with 404, while a missing file (raw ENOENT) falls through to the second
mount. -/
theorem c6_propagation_witness :
    handleStaticFiles c6Fs c6Req [c6MountA, c6MountB] = .error (.httpError 404 "Not Found") ∧
    handleStaticFiles c6FsMissing c6Req [c6MountA, c6MountB] =
      handleStaticFiles c6FsMissing c6Req [c6MountB] :=
  ⟨c6_propagation c6Fs c6Req c6MountA [c6MountB] (.httpError 404 "Not Found")
      (by decide) (by decide) (by rfl),
   c6_propagation c6FsMissing c6Req c6MountA [c6MountB]
      (.fsError "ENOENT" "ENOENT: no such file or directory")
      (by decide) (by decide) (by rfl)⟩

/-! ## Claim C7 -/

/-- C7: when `#handleStaticFiles` resolves a request to a regular file
whose final filename segment begins with a dot (checked after the
directory branch, on the basename of the resolved path), policy `deny`
fails 403 Forbidden, `ignore` fails 404 Not Found, and `allow` serves
the file normally with 200. -/
theorem c7_dotfile_policies (fs : Fs) (req : Request) (m : Mount) (rest : List Mount)
    (content : List Nat) (mtime : Int)
    (hmatch : jsStartsWith req.path m.urlPath = true)
    (hcontain : jsStartsWith (resolveMountPath m req.path) m.dirPath = true)
    (hget : fsGet fs (resolveMountPath m req.path) = some (.file content mtime))
    (hdot : (pathBasename (resolveMountPath m req.path)).data.head? = some '.')
    (hinm : req.ifNoneMatch = none) (hrange : req.range = none) :
    (m.options.dotfiles = "deny" →
      handleStaticFiles fs req (m :: rest) = .error (.httpError 403 "Forbidden")) ∧
    (m.options.dotfiles = "ignore" →
      handleStaticFiles fs req (m :: rest) = .error (.httpError 404 "Not Found")) ∧
    (m.options.dotfiles = "allow" →
      handleStatus (handleStaticFiles fs req (m :: rest)) = some 200) := by
  have hstat : statFs fs (resolveMountPath m req.path) = .ok ⟨true, false, content.length, mtime⟩ := by
    rw [statFs, hget]
  have hbase : handleStaticFiles fs req (m :: rest) =
      (match tryServeMount fs req m (resolveMountPath m req.path) with
       | .ok r => .ok (.served r)
       | .error e => if errCode e = some "ENOENT" then handleStaticFiles fs req rest
         else .error e) := by
    rw [handleStaticFiles, if_pos hmatch]
    rw [if_neg (by
      rw [show pathJoin m.dirPath (jsSliceFrom req.path m.urlPath.data.length) =
        resolveMountPath m req.path from rfl, hcontain]
      exact fun hn => hn rfl)]
    rfl
  have htsPre : tryServeMount fs req m (resolveMountPath m req.path) =
      (match m.options.dotfiles with
       | "deny" => .error (.httpError 403 "Forbidden")
       | "ignore" => .error (.httpError 404 "Not Found")
       | _ => serveStaticFile fs req (resolveMountPath m req.path) m.options) := by
    rw [tryServeMount.eq_def]
    simp only [hstat]
    rw [if_neg (by simp)]
    rw [if_pos hdot]
  refine ⟨?_, ?_, ?_⟩
  · intro hpol
    rw [hbase, htsPre, hpol]
    rfl
  · intro hpol
    rw [hbase, htsPre, hpol]
    rfl
  · intro hpol
    have hserve : serveStaticFile fs req (resolveMountPath m req.path) m.options =
        serveAfterStat fs req (resolveMountPath m req.path) m.options
          ⟨true, false, content.length, mtime⟩ := by
      simp [serveStaticFile, hstat]
    have h200 : ∃ r, serveAfterStat fs req (resolveMountPath m req.path) m.options
        ⟨true, false, content.length, mtime⟩ = .ok r ∧ r.status = 200 := by
      rw [serveAfterStat]
      simp only [hinm]
      rw [if_neg (by simp)]
      rw [hrange]
      exact ⟨_, rfl, rfl⟩
    obtain ⟨r, hr, hr200⟩ := h200
    rw [hbase, htsPre, hpol]
    show handleStatus (match serveStaticFile fs req (resolveMountPath m req.path) m.options with
      | Except.ok r => Except.ok (HandleResult.served r)
      | Except.error e => if errCode e = some "ENOENT" then handleStaticFiles fs req rest
        else Except.error e) = some 200
    rw [hserve, hr]
    simp [handleStatus, hr200]

/-- Filesystem for C7's witness: one dotfile under the mount root. -/
def c7Fs : Fs := [("/r7/.secret", .file [3] 0)]

/-- Mount constructor for C7's witness, parameterized by policy. -/
def c7Mount (pol : String) : Mount := ⟨"/r7", "/r7", mkStaticOptions { dotfiles := some pol }⟩

/-- Request for C7's witness. -/
def c7Req : Request := ⟨"/r7/.secret", none, none⟩

/-- Witness for C7: the three policies on a concrete dotfile. -/
theorem c7_dotfile_policies_witness :
    handleStaticFiles c7Fs c7Req [c7Mount "deny"] = .error (.httpError 403 "Forbidden") ∧
    handleStaticFiles c7Fs c7Req [c7Mount "ignore"] = .error (.httpError 404 "Not Found") ∧
    handleStatus (handleStaticFiles c7Fs c7Req [c7Mount "allow"]) = some 200 :=
  ⟨(c7_dotfile_policies c7Fs c7Req (c7Mount "deny") [] [3] 0
      (by decide) (by decide) (by decide) (by decide) rfl rfl).1 (by decide),
   (c7_dotfile_policies c7Fs c7Req (c7Mount "ignore") [] [3] 0
      (by decide) (by decide) (by decide) (by decide) rfl rfl).2.1 (by decide),
   (c7_dotfile_policies c7Fs c7Req (c7Mount "allow") [] [3] 0
      (by decide) (by decide) (by decide) (by decide) rfl rfl).2.2 (by decide)⟩

/-! ## Claim C8 -/

/-- Filesystem for C8's scenarios. -/
def c8Fs : Fs := [("/r8/f.txt", .file [65] 0)]

/-- Request for C8's scenarios. -/
def c8Req : Request := ⟨"/r8/f.txt", none, none⟩

/-- C8 is false as stated: a mount registered with the max-age option
equal to the positive integer 1 serves a successful 200 response whose
Cache-Control carries `max-age=0`, not `max-age=1` — the option is in
milliseconds (line 20) and line 58 emits `Math.floor(maxAge / 1000)`. -/
theorem c8_counterexample :
    (mkStaticOptions { maxAge := some 1 }).maxAge = 1 ∧
    respStatus (serveStaticFile c8Fs c8Req "/r8/f.txt" (mkStaticOptions { maxAge := some 1 })) =
      some 200 ∧
    respHeader "Cache-Control"
      (serveStaticFile c8Fs c8Req "/r8/f.txt" (mkStaticOptions { maxAge := some 1 })) =
      some "public, max-age=0" ∧
    (some "public, max-age=0" : Option String) ≠ some "public, max-age=1" := by
  refine ⟨by decide, by decide, by decide, by decide⟩

/-- C8 (amended): for a mount whose registered `maxAge` is a nonzero
integer `s` of milliseconds, every response that reaches the header
block (any request not short-circuited to 304) carries
`Cache-Control: public, max-age=<floor(s / 1000)>` — the emitted
directive is the registered value divided by 1000, not `s` itself. -/
theorem c8_cache_control (fs : Fs) (req : Request) (filePath : String) (s : Int) (o : RawOptions)
    (content : List Nat) (mtime : Int)
    (hma : o.maxAge = some s) (hs : s ≠ 0)
    (hget : fsGet fs filePath = some (.file content mtime))
    (hinm : req.ifNoneMatch = none) :
    respHeader "Cache-Control" (serveStaticFile fs req filePath (mkStaticOptions o)) =
      some ("public, max-age=" ++ intStr (s.fdiv 1000)) := by
  have hopt : (mkStaticOptions o).maxAge = s := by
    rw [mkStaticOptions]
    simp [hma]
  have hstat : statFs fs filePath = .ok ⟨true, false, content.length, mtime⟩ := by
    rw [statFs, hget]
  have hserve : serveStaticFile fs req filePath (mkStaticOptions o) =
      serveAfterStat fs req filePath (mkStaticOptions o) ⟨true, false, content.length, mtime⟩ := by
    simp [serveStaticFile, hstat]
  rw [hserve, serveAfterStat]
  simp only [hinm]
  rw [if_neg (by simp)]
  rw [hopt, if_pos hs]
  cases hneg : negotiateRange req.range ((content.length : Nat) : Int) with
  | full =>
    simp only [respHeader]
    rw [getHeader_withStatusBody, getHeader_setHeader_self]
  | unsat =>
    simp only [respHeader]
    rw [getHeader_withStatusBody, getHeader_setHeader_other _ _ _ _ (by decide),
      getHeader_setHeader_self]
  | ranged s' e' =>
    simp only [respHeader]
    rw [getHeader_withStatusBody, getHeader_setHeader_other _ _ _ _ (by decide),
      getHeader_setHeader_other _ _ _ _ (by decide),
      getHeader_setHeader_other _ _ _ _ (by decide),
      getHeader_setHeader_self]

/-- Witness for the amended C8: 1500 registered milliseconds emit
`max-age=1`. -/
theorem c8_cache_control_witness :
    respHeader "Cache-Control"
      (serveStaticFile c8Fs c8Req "/r8/f.txt" (mkStaticOptions { maxAge := some 1500 })) =
      some ("public, max-age=" ++ intStr ((1500 : Int).fdiv 1000)) :=
  c8_cache_control c8Fs c8Req "/r8/f.txt" 1500 { maxAge := some 1500 } [65] 0
    rfl (by decide) (by decide) rfl
